import Mathlib

/-!
# Verification of the UFC weekly Discord bot (`bot.py`)

Shallow embedding of the event-resolution, parsing, formatting and
scheduling pipeline of `bot.py`.  HTML pages are modelled abstractly:
a CSS selection such as `soup.select_one(...)` becomes an `Option` field
holding the stripped text (or structured content) the code extracts, and
`soup.select(...)` becomes a list of such records.  Python exceptions
become `Except`, with `RuntimeError msg` as the single error shape the
script raises.
-/

namespace UfcBot

/-! ## Configuration constants (bot.py lines 35-47) -/

def POST_WEEKDAY : Nat := 4

def POST_HOUR : Nat := 12

def POST_MINUTE : Nat := 0

def UFCSTATS_UPCOMING : String := "https://ufcstats.com/statistics/events/upcoming"

/-! ## Data model of the parsed pages -/

/-- An `<a>` element as the code reads it: stripped text plus the
`href` attribute when present (`a["href"] if a and a.has_attr("href")`). -/
structure Anchor where
  text : String
  href : Option String
deriving DecidableEq

/-- One `tbody tr` row of the upcoming-events table: the first `a`
element, and the stripped texts of the 2nd and 3rd `td` cells, each
`none` when the selector matches nothing. -/
structure EventRow where
  anchor : Option Anchor
  dateCell : Option String
  locCell : Option String
deriving DecidableEq

/-- The `table.b-statistics__table-events` element: its `tbody tr` rows. -/
structure UpcomingTable where
  rows : List EventRow
deriving DecidableEq

/-- The upcoming-events listing page; `table = none` models the selector
finding no table element. -/
structure UpcomingPage where
  table : Option UpcomingTable
deriving DecidableEq

/-- The only exception shape `bot.py` raises itself:
`raise RuntimeError(msg)`.  Both the missing-table and the zero-rows
failures use this same type. -/
inductive BotError where
  | runtimeError (msg : String)
deriving DecidableEq

/-- The dict returned by `get_next_event`:
`{title, date_text, location, url}`. -/
structure EventInfo where
  title : String
  date_text : String
  location : String
  url : Option String
deriving DecidableEq

/-- `get_next_event` (bot.py lines 58-87), starting after the fetch:
locate the table (else `RuntimeError`), take its first row (else
`RuntimeError`), then read title, url, date text and location with the
code's fallbacks. -/
def get_next_event (page : UpcomingPage) : Except BotError EventInfo :=
  match page.table with
  | none => .error (.runtimeError "Could not locate upcoming events table on UFCStats.")
  | some table =>
    match table.rows.head? with
    | none => .error (.runtimeError "No upcoming event rows found.")
    | some first_row =>
      let title := match first_row.anchor with
        | some a => a.text
        | none => "UFC Event"
      let url := match first_row.anchor with
        | some a => a.href
        | none => none
      .ok { title := title
            date_text := first_row.dateCell.getD ""
            location := first_row.locCell.getD ""
            url := url }

/-! ## Fight-card parsing (`get_fight_card`, bot.py lines 89-127) -/

/-- A primary-strategy row (`tr.b-fight-details__table-row...`):
the first weight-class `td` text and the texts of all
`a.b-link.b-link_style_black` name links in the row. -/
structure PrimaryRow where
  weightTd : Option String
  nameLinks : List String
deriving DecidableEq

/-- A fallback-strategy container (`div.b-fight-details__fight`):
the `i.b-fight-details__fight-title` text and the texts of all
`div.b-fight-details__person a` links. -/
structure FallbackBout where
  fightTitle : Option String
  persons : List String
deriving DecidableEq

/-- The event detail page: the element lists each selector strategy reads. -/
structure EventPage where
  primaryRows : List PrimaryRow
  fallbackBouts : List FallbackBout
deriving DecidableEq

/-- One entry of the `fights` list: `{weight, red, blue}`. -/
structure Fight where
  weight : String
  red : String
  blue : String
deriving DecidableEq

/-- The de-duplication loop of bot.py lines 108-113: keep each name the
first time it is seen, skipping empty strings (`if n and n not in seen`).
The accumulator doubles as the `seen` set. -/
def dedupNames (names : List String) : List String :=
  names.foldl (fun acc n => if n ≠ "" ∧ n ∉ acc then acc ++ [n] else acc) []

/-- One iteration of the primary loop (bot.py lines 100-116): emit a fight
from the first two de-duplicated names, or nothing when fewer than two
remain (`if len(fighters) >= 2`). -/
def parsePrimaryRow (row : PrimaryRow) : Option Fight :=
  match dedupNames row.nameLinks with
  | red :: blue :: _ => some { weight := row.weightTd.getD "", red := red, blue := blue }
  | _ => none

/-- One iteration of the fallback loop (bot.py lines 120-125): emit a
fight from the first two raw person texts — no de-duplication —
when at least two occurrences exist (`if len(persons) >= 2`). -/
def parseFallbackBout (bout : FallbackBout) : Option Fight :=
  match bout.persons with
  | red :: blue :: _ => some { weight := bout.fightTitle.getD "", red := red, blue := blue }
  | _ => none

/-- The body of `get_fight_card` after the fetch: run the primary strategy
over all rows; if it produced no fights, run the fallback strategy. -/
def parseCard (page : EventPage) : List Fight :=
  let fights := page.primaryRows.filterMap parsePrimaryRow
  if fights.isEmpty then page.fallbackBouts.filterMap parseFallbackBout else fights

/-- Python truthiness of the `event_url` argument: `not event_url` holds
for `None` and for the empty string. -/
def isFalsyUrl : Option String → Bool
  | none => true
  | some s => s = ""

/-- `get_fight_card` (bot.py lines 89-127).  The second component counts
detail-page fetches: the code returns `[]` before `fetch` when
`not event_url`, and otherwise fetches exactly once and parses the page. -/
def get_fight_card (event_url : Option String) (page : EventPage) : List Fight × Nat :=
  if isFalsyUrl event_url then ([], 0)
  else (parseCard page, 1)

/-! ## Formatting (`format_message`, bot.py lines 131-151) -/

/-- `event.get("url") or UFCSTATS_UPCOMING`: the fallback link engages for
a missing url and for an empty one (both falsy). -/
def urlOrDefault : Option String → String
  | none => UFCSTATS_UPCOMING
  | some u => if u = "" then UFCSTATS_UPCOMING else u

/-- The header f-string of bot.py line 137. -/
def formatHeader (event : EventInfo) : String :=
  "**" ++ event.title ++ "**\n📅 " ++ event.date_text ++ "  •  📍 " ++ event.location
    ++ "\n🔗 More: " ++ urlOrDefault event.url ++ "\n\n**Fight Card**"

/-- One bout line (bot.py lines 142-146): the weight-class suffix is
omitted when the label is empty. -/
def renderFight (fight : Fight) : String :=
  if fight.weight ≠ "" then
    "• " ++ fight.red ++ " vs " ++ fight.blue ++ "  —  *" ++ fight.weight ++ "*"
  else
    "• " ++ fight.red ++ " vs " ++ fight.blue

/-- The trailing summary line of bot.py line 149. -/
def moreLine (n : Nat) : String :=
  "…and " ++ toString (n - 8) ++ " more bouts"

/-- The `lines` list of bot.py lines 140-149: one line per fight among the
first 8 (`fights[:8]`), plus the summary line when `len(fights) > 8`. -/
def formatLines (fights : List Fight) : List String :=
  let lines := (fights.take 8).map renderFight
  if 8 < fights.length then lines ++ [moreLine fights.length] else lines

/-- `format_message` (bot.py line 151): `header + "\n" + "\n".join(lines)`. -/
def format_message (event : EventInfo) (fights : List Fight) : String :=
  formatHeader event ++ "\n" ++ String.intercalate "\n" (formatLines fights)

/-! ## The pipeline boundary (`post_update`, bot.py lines 158-179) -/

/-- The generic fallback text posted when any exception escapes the
`try` block of `post_update`. -/
def fallbackMsg : String :=
  "Couldn\x27t fetch the next UFC event right now. (The source might have changed.)"

/-- The message `post_update` sends, as a function of the two fetched
pages: any error raised while building the update collapses to the one
generic fallback string. -/
def post_update_msg (page : UpcomingPage) (detail : EventPage) : String :=
  match get_next_event page with
  | .error _ => fallbackMsg
  | .ok event => format_message event (get_fight_card event.url detail).1

/-! ## Helper: substring occurrence, used to state facts about rendered text -/

/-- `startsWithChars pat l` holds when `pat` is an initial segment of `l`. -/
def startsWithChars : List Char → List Char → Bool
  | [], _ => true
  | _ :: _, [] => false
  | a :: ps, b :: ls => a == b && startsWithChars ps ls

/-- `containsChars pat l` holds when `pat` occurs contiguously inside `l`. -/
def containsChars (pat : List Char) : List Char → Bool
  | [] => startsWithChars pat []
  | b :: ls => startsWithChars pat (b :: ls) || containsChars pat ls

/-- The string `pat` occurs as a contiguous substring of `s`. -/
def occursIn (pat s : String) : Prop := containsChars pat.data s.data = true

instance (pat s : String) : Decidable (occursIn pat s) :=
  inferInstanceAs (Decidable (containsChars pat.data s.data = true))

/-! ## Calendar-feed variant (spec §4.2)

Modelled from the spec: the repository's only source file (`bot.py`)
implements the tabular UFCStats variant; the calendar-feed `SourceParser`
variant described in spec §4.2 and §4.3 has no code under `src/`, so its
component model, past-event filter, field mapping, ascending sort and
head-of-list resolution are taken from the spec's words. -/

/-- Modelled from the spec: one timed component of the calendar feed,
with its `SUMMARY`, `DTSTART` (as an abstract integer timestamp),
`LOCATION`, `UID` and `DESCRIPTION` fields. -/
structure FeedComponent where
  summary : String
  dtstart : Int
  location : String
  uid : String
  description : String
deriving DecidableEq

/-- Modelled from the spec: the `Event` record the feed variant produces
(`bouts` is always empty for this source, so it is omitted). -/
structure FeedEvent where
  title : String
  startTime : Int
  location : String
  detailURL : String
  description : String
deriving DecidableEq

/-- Modelled from the spec: the field mapping
`Event{title=SUMMARY, startTime=DTSTART, location=LOCATION,
detailURL=UID-as-URL, description=DESCRIPTION}`. -/
def componentToEvent (c : FeedComponent) : FeedEvent :=
  { title := c.summary
    startTime := c.dtstart
    location := c.location
    detailURL := c.uid
    description := c.description }

/-- Ordering of feed events by start time, used for the ascending sort. -/
def feedLE (a b : FeedEvent) : Prop := a.startTime ≤ b.startTime

instance : DecidableRel feedLE :=
  fun a b => inferInstanceAs (Decidable (a.startTime ≤ b.startTime))

instance : IsTotal FeedEvent feedLE :=
  ⟨fun a b => Int.le_total a.startTime b.startTime⟩

instance : IsTrans FeedEvent feedLE :=
  ⟨fun _ _ _ => Int.le_trans⟩

/-- Modelled from the spec: `parseFeed` keeps only components whose start
timestamp is strictly after the current instant, maps them to events, and
sorts ascending by start time. -/
def parseFeed (components : List FeedComponent) (now : Int) : List FeedEvent :=
  List.insertionSort feedLE
    ((components.filter (fun c => decide (now < c.dtstart))).map componentToEvent)

/-- Modelled from the spec: `resolveNext` returns the first element of the
already-ordered sequence, `none` (= `NotFound`) when it is empty. -/
def resolveNext (events : List FeedEvent) : Option FeedEvent := events.head?

/-! ## Scheduler (`scheduler_loop`, bot.py lines 181-190)

`scheduler_loop` is a `tasks.loop(minutes=1)` poll: every minute it reads
`datetime.now(TZ)` and posts exactly when the local weekday, hour and
minute all match the configured slot.  We model local (Europe/Copenhagen)
wall-clock time at minute granularity: an instant is a count of minutes
since a reference Monday 00:00 local, so the loop inspects every minute
index exactly once and fires at minute `t` iff `should_fire t`.  The fire
instant the loop will hit next after an instant `now` is therefore the
least matching minute strictly after `now`. -/

/-- `now.weekday()` of a local minute index (0 = Monday .. 6 = Sunday). -/
def weekdayOf (t : Nat) : Nat := t / 1440 % 7

/-- `now.hour` of a local minute index. -/
def hourOf (t : Nat) : Nat := t / 60 % 24

/-- `now.minute` of a local minute index. -/
def minuteOf (t : Nat) : Nat := t % 60

/-- The posting condition of bot.py lines 184-188. -/
def should_fire (t : Nat) : Bool :=
  weekdayOf t == POST_WEEKDAY && hourOf t == POST_HOUR && minuteOf t == POST_MINUTE

/-- A minute matches the slot iff its offset inside its week is the slot
offset `4 * 1440 + 12 * 60 = 6480`. -/
theorem should_fire_iff_mod (t : Nat) : should_fire t = true ↔ t % 10080 = 6480 := by
  simp only [should_fire, weekdayOf, hourOf, minuteOf, POST_WEEKDAY, POST_HOUR, POST_MINUTE,
    Bool.and_eq_true, beq_iff_eq]
  omega

/-- There is always a matching minute strictly after `now`. -/
theorem fire_exists (now : Nat) : ∃ t, now < t ∧ should_fire t = true := by
  refine ⟨10080 * (now / 10080 + 1) + 6480, ?_, ?_⟩
  · omega
  · rw [should_fire_iff_mod]
    omega

/-- The next minute strictly after `now` at which the polling loop's
condition holds: the loop's next fire instant. -/
def nextFire (now : Nat) : Nat := Nat.find (fire_exists now)

/-- C1: the scheduler's next fire instant, for any current instant `now`,
is strictly in the future and falls exactly on the configured weekday,
hour and minute (in the configured timezone, since the model is local
wall-clock time); when `now` is on the configured weekday but strictly
past the configured hour:minute, the next fire is the current day's slot
plus exactly 7 days; and when `now` is itself a firing minute the next
fire is exactly 7 days later, so the loop never fires twice for one
nominal slot. -/
theorem scheduler_next_fire (now : Nat) :
    now < nextFire now
    ∧ weekdayOf (nextFire now) = POST_WEEKDAY
    ∧ hourOf (nextFire now) = POST_HOUR
    ∧ minuteOf (nextFire now) = POST_MINUTE
    ∧ (weekdayOf now = POST_WEEKDAY → POST_HOUR * 60 + POST_MINUTE < now % 1440 →
        nextFire now = now / 1440 * 1440 + (POST_HOUR * 60 + POST_MINUTE) + 7 * 1440)
    ∧ (should_fire now = true → nextFire now = now + 7 * 1440) := by
  obtain ⟨hlt, hfire⟩ := Nat.find_spec (fire_exists now)
  have hmod : nextFire now % 10080 = 6480 := (should_fire_iff_mod _).mp hfire
  refine ⟨hlt, ?_, ?_, ?_, ?_, ?_⟩
  · simp only [weekdayOf, POST_WEEKDAY]
    omega
  · simp only [hourOf, POST_HOUR]
    omega
  · simp only [minuteOf, POST_MINUTE]
    omega
  · intro hw hp
    simp only [weekdayOf, POST_WEEKDAY] at hw
    simp only [POST_HOUR, POST_MINUTE] at hp ⊢
    refine (Nat.find_eq_iff _).mpr ⟨⟨by omega, ?_⟩, ?_⟩
    · rw [should_fire_iff_mod]
      omega
    · intro m hm hcontra
      obtain ⟨h1, h2⟩ := hcontra
      rw [should_fire_iff_mod] at h2
      omega
  · intro hsf
    rw [should_fire_iff_mod] at hsf
    refine (Nat.find_eq_iff _).mpr ⟨⟨by omega, ?_⟩, ?_⟩
    · rw [should_fire_iff_mod]
      omega
    · intro m hm hcontra
      obtain ⟨h1, h2⟩ := hcontra
      rw [should_fire_iff_mod] at h2
      omega

/-- Witness for `scheduler_next_fire`: minute 6500 is a Friday at 12:20
local (past the 12:00 slot), so the next fire is minute 16560, the
following Friday 12:00; minute 6480 is the Friday 12:00 slot itself, and
its next fire is also 16560, a week later. -/
theorem scheduler_next_fire_witness :
    nextFire 6500 = 16560 ∧ nextFire 6480 = 16560 := by
  obtain ⟨-, -, -, -, h5, -⟩ := scheduler_next_fire 6500
  obtain ⟨-, -, -, -, -, h6⟩ := scheduler_next_fire 6480
  refine ⟨?_, ?_⟩
  · have := h5 (by decide) (by decide)
    simp only [POST_HOUR, POST_MINUTE] at this
    omega
  · have := h6 (by decide)
    omega

/-! ## C2: the zero-events outcome -/

/-- C2 counterexample: a listing page whose table is present but has zero
rows makes `get_next_event` raise `RuntimeError` — the very same error
type the missing-table parse failure raises — and `post_update` renders
the generic fetch-failure fallback text, not a dedicated "no upcoming
event found" message. -/
theorem zero_events_counterexample :
    get_next_event ⟨some ⟨[]⟩⟩ = .error (.runtimeError "No upcoming event rows found.")
    ∧ get_next_event ⟨none⟩
        = .error (.runtimeError "Could not locate upcoming events table on UFCStats.")
    ∧ post_update_msg ⟨some ⟨[]⟩⟩ ⟨[], []⟩ = fallbackMsg :=
  ⟨rfl, rfl, rfl⟩

/-- C2 amended: when the parsed listing yields zero upcoming events the
code raises a `RuntimeError` (the same error type as a structural parse
failure), and whatever the detail page holds, the pipeline boundary
converts it into the one generic fallback message; no distinct `NotFound`
outcome or dedicated message exists. -/
theorem zero_events_generic_fallback :
    get_next_event ⟨some ⟨[]⟩⟩ = .error (.runtimeError "No upcoming event rows found.")
    ∧ ∀ detail : EventPage, post_update_msg ⟨some ⟨[]⟩⟩ detail = fallbackMsg :=
  ⟨rfl, fun _ => rfl⟩

/-! ## C3: distinct sides -/

/-- The de-duplication fold never inserts a name already present, so it
maps any accumulator without duplicates to a result without duplicates. -/
theorem dedup_foldl_nodup (names : List String) :
    ∀ acc : List String, acc.Nodup →
      (names.foldl (fun acc n => if n ≠ "" ∧ n ∉ acc then acc ++ [n] else acc) acc).Nodup := by
  induction names with
  | nil => intro acc h; simpa using h
  | cons n ns ih =>
    intro acc h
    simp only [List.foldl_cons]
    by_cases hc : n ≠ "" ∧ n ∉ acc
    · rw [if_pos hc]
      exact ih _ (by simp [List.nodup_append, h, hc.2])
    · rw [if_neg hc]
      exact ih _ h

/-- The de-duplicated name list of a row has no repeated entries. -/
theorem dedupNames_nodup (names : List String) : (dedupNames names).Nodup :=
  dedup_foldl_nodup names [] List.nodup_nil

/-- C3 counterexample: when the primary strategy finds no row, the
fallback strategy emits the first two raw name occurrences without any
de-duplication, so a fallback container repeating one fighter's name
yields a bout whose two sides are the same name. -/
theorem fallback_equal_sides_counterexample :
    parseCard ⟨[], [⟨none, ["Alice", "Alice", "Bob"]⟩]⟩
      = [{ weight := "", red := "Alice", blue := "Alice" }] := by
  decide

/-- C3 amended: every bout emitted by the primary selector strategy has
distinct sides (`red ≠ blue`), because the first two entries of the
de-duplicated name list are distinct; the fallback strategy carries no
such guarantee. -/
theorem primary_sides_distinct (row : PrimaryRow) (f : Fight)
    (h : parsePrimaryRow row = some f) : f.red ≠ f.blue := by
  have hn := dedupNames_nodup row.nameLinks
  unfold parsePrimaryRow at h
  rcases hd : dedupNames row.nameLinks with _ | ⟨red, _ | ⟨blue, rest⟩⟩ <;> rw [hd] at h hn
  · exact absurd h (by simp)
  · exact absurd h (by simp)
  · simp only [Option.some.injEq] at h
    have hne : red ≠ blue := by
      simp only [List.nodup_cons, List.mem_cons] at hn
      exact fun he => hn.1 (Or.inl he)
    rw [← h]
    exact hne

/-- Witness for `primary_sides_distinct` at a concrete two-name row. -/
theorem primary_sides_distinct_witness :
    parsePrimaryRow ⟨none, ["Ann", "Ben"]⟩ = some ⟨"", "Ann", "Ben"⟩
    ∧ ("Ann" : String) ≠ "Ben" :=
  ⟨by decide, primary_sides_distinct ⟨none, ["Ann", "Ben"]⟩ ⟨"", "Ann", "Ben"⟩ (by decide)⟩

/-! ## C4: the title fallback -/

/-- C4 counterexample: a first row whose anchor element exists but has
empty text produces an `Event` whose title is the empty string — the
default label only replaces a missing anchor, not an empty title. -/
theorem empty_title_counterexample :
    get_next_event
        ⟨some ⟨[⟨some ⟨"", some "http://e"⟩, some "June 7, 2026", some "Las Vegas"⟩]⟩⟩
      = .ok ⟨"", "June 7, 2026", "Las Vegas", some "http://e"⟩ := rfl

/-- C4 amended: the default label `"UFC Event"` is substituted exactly
when the first row has no anchor element at all; when an anchor is
present its text is used verbatim, even when that text is empty. -/
theorem title_fallback (r : EventRow) (rest : List EventRow) :
    (r.anchor = none →
      get_next_event ⟨some ⟨r :: rest⟩⟩
        = .ok ⟨"UFC Event", r.dateCell.getD "", r.locCell.getD "", none⟩)
    ∧ (∀ a : Anchor, r.anchor = some a →
      get_next_event ⟨some ⟨r :: rest⟩⟩
        = .ok ⟨a.text, r.dateCell.getD "", r.locCell.getD "", a.href⟩) := by
  constructor
  · intro h
    simp [get_next_event, h]
  · intro a h
    simp [get_next_event, h]

/-- Witness for `title_fallback`: a row with no anchor gets the default
label. -/
theorem title_fallback_witness :
    get_next_event ⟨some ⟨[⟨none, none, none⟩]⟩⟩ = .ok ⟨"UFC Event", "", "", none⟩ := by
  have h := (title_fallback ⟨none, none, none⟩ []).1 rfl
  simpa using h

/-! ## C5: truncation to 8 bout lines -/

/-- C5: the rendered body has exactly `min n 8` bout lines, the bout
lines are the renderings of the first 8 input bouts in input order, the
summary line `…and N more bouts` with `N = n - 8` is appended exactly
when `n > 8`, and when `n ≤ 8` the body is the rendering of the whole
input with no extra line. -/
theorem formatLines_truncation (fights : List Fight) :
    (formatLines fights).length
        = min fights.length 8 + (if 8 < fights.length then 1 else 0)
    ∧ (formatLines fights).take 8 = (fights.take 8).map renderFight
    ∧ (8 < fights.length →
        formatLines fights = (fights.take 8).map renderFight ++ [moreLine fights.length])
    ∧ (fights.length ≤ 8 → formatLines fights = fights.map renderFight) := by
  by_cases h : 8 < fights.length
  · have hF : formatLines fights = (fights.take 8).map renderFight ++ [moreLine fights.length] := by
      unfold formatLines
      rw [if_pos h]
    have hlen : ((fights.take 8).map renderFight).length = 8 := by
      simp only [List.length_map, List.length_take]
      omega
    refine ⟨?_, ?_, fun _ => hF, fun hle => absurd h (by omega)⟩
    · rw [hF, if_pos h]
      simp only [List.length_append, List.length_map, List.length_take, List.length_singleton]
      omega
    · rw [hF]
      set L := (fights.take 8).map renderFight with hL
      rw [← hlen, List.take_left]
  · have hle : fights.length ≤ 8 := by omega
    have hF : formatLines fights = fights.map renderFight := by
      unfold formatLines
      rw [if_neg h, List.take_of_length_le hle]
    refine ⟨?_, ?_, fun hc => absurd hc h, fun _ => hF⟩
    · rw [hF, if_neg h]
      simp only [List.length_map]
      omega
    · rw [hF, List.take_of_length_le (by simp only [List.length_map]; omega),
        List.take_of_length_le hle]

/-- Witness for `formatLines_truncation`: ten concrete bouts render as
the first eight bout lines plus `…and 2 more bouts`. -/
theorem formatLines_truncation_witness :
    formatLines ((List.range 10).map (fun i => ⟨"", "R" ++ toString i, "B" ++ toString i⟩))
      = ((((List.range 10).map (fun i => ⟨"", "R" ++ toString i, "B" ++ toString i⟩)).take 8).map
          renderFight) ++ [moreLine 10] := by
  have h := (formatLines_truncation
    ((List.range 10).map (fun i => ⟨"", "R" ++ toString i, "B" ++ toString i⟩))).2.2.1
  have h10 : ((List.range 10).map
      (fun i => (⟨"", "R" ++ toString i, "B" ++ toString i⟩ : Fight))).length = 10 := by
    simp
  rw [h10] at h
  exact h (by omega)

/-! ## C6: first-seen order de-duplication -/

/-- C6: a row whose name occurrences are `[A, A, B, A, B]` with two
distinct non-empty names de-duplicates to `[A, B]` in first-seen order
and yields the bout `A` vs `B`. -/
theorem dedup_first_seen (A B : String) (w : Option String)
    (hA : A ≠ "") (hB : B ≠ "") (hAB : A ≠ B) :
    dedupNames [A, A, B, A, B] = [A, B]
    ∧ parsePrimaryRow ⟨w, [A, A, B, A, B]⟩ = some ⟨w.getD "", A, B⟩ := by
  have hd : dedupNames [A, A, B, A, B] = [A, B] := by
    simp [dedupNames, hA, hB, hAB, Ne.symm hAB]
  exact ⟨hd, by simp [parsePrimaryRow, hd]⟩

/-- Witness for `dedup_first_seen` at two concrete names. -/
theorem dedup_first_seen_witness :
    parsePrimaryRow ⟨some "Heavyweight", ["Jones", "Jones", "Smith", "Jones", "Smith"]⟩
      = some ⟨"Heavyweight", "Jones", "Smith"⟩ :=
  (dedup_first_seen "Jones" "Smith" (some "Heavyweight")
    (by decide) (by decide) (by decide)).2

/-! ## C7: rows with fewer than two distinct names -/

/-- C7 counterexample: `["Xavier", "Xavier"]` carries a single distinct
name, yet the fallback strategy (which counts raw occurrences, not
distinct names) still emits a bout for it — with both sides equal. -/
theorem single_name_counterexample :
    dedupNames ["Xavier", "Xavier"] = ["Xavier"]
    ∧ parseCard ⟨[], [⟨some "Lightweight", ["Xavier", "Xavier"]⟩]⟩
        = [{ weight := "Lightweight", red := "Xavier", blue := "Xavier" }] := by
  exact ⟨by decide, by decide⟩

/-- C7 amended: the primary strategy drops any row whose de-duplicated
name list has fewer than two entries; the fallback strategy drops a
container only when it has fewer than two raw name occurrences, counted
with multiplicity. -/
theorem row_drop_rules :
    (∀ row : PrimaryRow,
      (dedupNames row.nameLinks).length < 2 → parsePrimaryRow row = none)
    ∧ (∀ bout : FallbackBout,
      bout.persons.length < 2 → parseFallbackBout bout = none) := by
  constructor
  · intro row h
    unfold parsePrimaryRow
    rcases hd : dedupNames row.nameLinks with _ | ⟨a, _ | ⟨b, r⟩⟩
    · rfl
    · rfl
    · rw [hd] at h
      simp at h
      omega
  · intro bout h
    unfold parseFallbackBout
    rcases hp : bout.persons with _ | ⟨a, _ | ⟨b, r⟩⟩
    · rfl
    · rfl
    · rw [hp] at h
      simp at h
      omega

/-- Witness for `row_drop_rules` at concrete single-name inputs. -/
theorem row_drop_rules_witness :
    parsePrimaryRow ⟨some "W1", ["Solo", "Solo"]⟩ = none
    ∧ parseFallbackBout ⟨some "W2", ["Lone"]⟩ = none :=
  ⟨row_drop_rules.1 ⟨some "W1", ["Solo", "Solo"]⟩ (by decide),
   row_drop_rules.2 ⟨some "W2", ["Lone"]⟩ (by decide)⟩

/-! ## C8: the header is unconditional -/

/-- C8 counterexample: for an event with empty location, no reference
link and no bouts, the output still contains the location marker line,
still contains a link line (the hard-coded upcoming-list URL), and still
contains the `**Fight Card**` body heading. -/
theorem header_unconditional_counterexample :
    format_message ⟨"UFC 300", "TBA", "", none⟩ []
      = "**UFC 300**\n📅 TBA  •  📍 \n🔗 More: https://ufcstats.com/statistics/events/upcoming\n\n**Fight Card**\n"
    ∧ occursIn "📍" (format_message ⟨"UFC 300", "TBA", "", none⟩ [])
    ∧ occursIn "🔗 More: https://ufcstats.com" (format_message ⟨"UFC 300", "TBA", "", none⟩ [])
    ∧ occursIn "**Fight Card**" (format_message ⟨"UFC 300", "TBA", "", none⟩ []) :=
  ⟨rfl, by decide, by decide, by decide⟩

/-- C8 amended: the header is built unconditionally — it always carries
the date/location line (even when the location is empty) and always a
link line, substituting the hard-coded upcoming-list URL when the event
URL is missing or empty — and always ends with the `**Fight Card**`
heading; with no bouts the body contributes no lines, leaving the header
plus a trailing newline. -/
theorem header_unconditional (e : EventInfo) :
    formatHeader e
      = "**" ++ e.title ++ "**\n📅 " ++ e.date_text ++ "  •  📍 " ++ e.location
        ++ "\n🔗 More: " ++ urlOrDefault e.url ++ "\n\n**Fight Card**"
    ∧ urlOrDefault none = UFCSTATS_UPCOMING
    ∧ urlOrDefault (some "") = UFCSTATS_UPCOMING
    ∧ (∀ u : String, u ≠ "" → urlOrDefault (some u) = u)
    ∧ formatLines [] = []
    ∧ format_message e [] = formatHeader e ++ "\n" := by
  refine ⟨rfl, rfl, rfl, fun u hu => by simp [urlOrDefault, hu], rfl, ?_⟩
  show formatHeader e ++ "\n" ++ String.intercalate "\n" (formatLines []) = formatHeader e ++ "\n"
  simp [formatLines, String.intercalate]

/-- Witness for `header_unconditional` at a concrete event with a
non-empty URL. -/
theorem header_unconditional_witness :
    urlOrDefault (some "http://x") = "http://x"
    ∧ format_message ⟨"T", "D", "L", some "http://x"⟩ []
        = formatHeader ⟨"T", "D", "L", some "http://x"⟩ ++ "\n" := by
  obtain ⟨-, -, -, h4, -, h6⟩ := header_unconditional ⟨"T", "D", "L", some "http://x"⟩
  exact ⟨h4 "http://x" (by decide), h6⟩

/-! ## C9: the calendar-feed past-event filter (spec-modelled) -/

/-- C9: the feed parse keeps only components whose start is strictly
after the evaluation instant, its output is sorted ascending by start
time, and a feed whose only component starts at or before the instant
yields the empty sequence, hence the `NotFound` (`none`) outcome. -/
theorem parseFeed_filters_and_sorts (components : List FeedComponent) (now : Int) :
    (∀ e ∈ parseFeed components now, now < e.startTime)
    ∧ List.Sorted feedLE (parseFeed components now)
    ∧ (∀ c : FeedComponent, c.dtstart ≤ now →
        parseFeed [c] now = [] ∧ resolveNext (parseFeed [c] now) = none) := by
  refine ⟨?_, ?_, ?_⟩
  · intro e he
    have hperm := List.perm_insertionSort feedLE
      ((components.filter (fun c => decide (now < c.dtstart))).map componentToEvent)
    have hmem := hperm.mem_iff.mp he
    obtain ⟨c, hc, rfl⟩ := List.mem_map.mp hmem
    have hf := (List.mem_filter.mp hc).2
    simpa [componentToEvent] using of_decide_eq_true hf
  · exact List.sorted_insertionSort feedLE _
  · intro c h
    have hempty : parseFeed [c] now = [] := by
      simp [parseFeed, List.filter, Int.not_lt.mpr h]
    exact ⟨hempty, by simp [resolveNext, hempty]⟩

/-- Witness for `parseFeed_filters_and_sorts`: a feed whose only
component started in the past resolves to nothing. -/
theorem parseFeed_witness :
    parseFeed [⟨"Past Event", 100, "Arena", "uid-1", "body"⟩] 200 = []
    ∧ resolveNext (parseFeed [⟨"Past Event", 100, "Arena", "uid-1", "body"⟩] 200) = none :=
  (parseFeed_filters_and_sorts [⟨"Past Event", 100, "Arena", "uid-1", "body"⟩] 200).2.2
    ⟨"Past Event", 100, "Arena", "uid-1", "body"⟩ (by decide)

/-! ## C10: missing event URL short-circuits the card fetch -/

/-- C10: a missing (`None`) or empty event URL makes `get_fight_card`
return the empty bout list without attempting the detail-page fetch
(fetch count 0), whatever the detail page would have held. -/
theorem fight_card_missing_url (u : Option String) (page : EventPage)
    (h : u = none ∨ u = some "") :
    get_fight_card u page = ([], 0) := by
  rcases h with h | h <;> subst h <;> rfl

/-- Witness for `fight_card_missing_url` at a missing URL and a
non-trivial detail page. -/
theorem fight_card_missing_url_witness :
    get_fight_card none ⟨[⟨some "W", ["A", "B"]⟩], []⟩ = ([], 0) :=
  fight_card_missing_url none ⟨[⟨some "W", ["A", "B"]⟩], []⟩ (Or.inl rfl)

end UfcBot
